import Mathlib

/-!
Verification of the robotaxi-osint-agent pipeline against its specification.

The Python sources are shallowly embedded: the string manipulations of
`models.py`, the analyzer and orchestrator logic of `llm_analyzer.py` and
`graph/graph_nodes.py`, the persistence merge and watermark handling of
`main.py`, and the keyword filtering of `reddit_poller.py` become executable
Lean functions over `String` / `List Char`, with Python floats modelled as
`Rat` and per-candidate exceptions as `Except`.
-/

set_option autoImplicit false

namespace Robotaxi

/-! ## Python string primitives (ASCII fragment used by the repository) -/

/-- The ASCII whitespace characters removed by Python's `str.strip()`
(space, tab, newline, carriage return, vertical tab, form feed). -/
def pySpace (c : Char) : Bool :=
  c.toNat = 32 || (9 ≤ c.toNat && c.toNat ≤ 13)

/-- Python `str.lower()` on one character, restricted to ASCII letters
(the only case mapping exercised by the repository's data). -/
def pyLowerChar (c : Char) : Char :=
  if 'A' ≤ c && c ≤ 'Z' then Char.ofNat (c.toNat + 32) else c

/-- Python `str.lower()`. -/
def pyLower (s : String) : String :=
  ⟨s.data.map pyLowerChar⟩

/-- Python `str.strip()` on a character list: drop whitespace at both ends. -/
def pyStripList (l : List Char) : List Char :=
  ((l.dropWhile pySpace).reverse.dropWhile pySpace).reverse

/-- Python `str.strip()`. -/
def pyStrip (s : String) : String :=
  ⟨pyStripList s.data⟩

/-- Python substring containment `needle in hay`. -/
def containsSub (needle : List Char) : List Char → Bool
  | [] => needle.isEmpty
  | c :: rest => needle.isPrefixOf (c :: rest) || containsSub needle rest

/-! ## models.py: field validators and the candidate record -/

/-- `ExtractedData.normalize_vehicle_type` (models.py): lower-case and strip
the value, accept only the listed spellings of the two vehicle names,
collapse anything else to `None`. -/
def normalize_vehicle_type : Option String → Option String
  | none => none
  | some v =>
    let v_lower := pyStrip (pyLower v)
    if v_lower = "cybercab" ∨ v_lower = "cyber cab" then some "cybercab"
    else if v_lower = "model y" ∨ v_lower = "modely" ∨ v_lower = "model-y" then
      some "model y"
    else none

/-- `l` contains no newline character: the characters Python's regex `.`
(without DOTALL) can match are exactly the non-newline characters. -/
def noNewline (l : List Char) : Bool :=
  l.all (fun c => c ≠ '\n')

/-- Match of the regex fragment `\s*.+$` against the text after the comma:
some (possibly empty) whitespace prefix followed by a nonempty newline-free
rest reaching the end of the string.  (`$` matching just before a final
newline cannot fire here because every input is `strip`ped first.) -/
def tailMatch : List Char → Bool
  | [] => false
  | c :: cs => (decide (c ≠ '\n') && noNewline cs) || (pySpace c && tailMatch cs)

/-- Match of `^.+,\s*.+$` from a position onwards; `seen` records whether at
least one (newline-free) character precedes, as required by the leading
`.+`. -/
def locMatchAux : Bool → List Char → Bool
  | _, [] => false
  | seen, c :: cs =>
    (seen && c = ',' && tailMatch cs) || (decide (c ≠ '\n') && locMatchAux true cs)

/-- Python `re.match(r'^.+,\s*.+$', s)` as a Boolean on the stripped input. -/
def locMatch (l : List Char) : Bool :=
  locMatchAux false l

/-- `ExtractedData.validate_location_format` (models.py): strip, then require
the `^.+,\s*.+$` shape; on failure collapse to `None`, on success return the
stripped string. -/
def validate_location_format : Option String → Option String
  | none => none
  | some v => if locMatch (pyStrip v).data then some (pyStrip v) else none

/-- Modelled from the spec's words, for comparison with the code's regex:
scan for a comma with at least one character before it (`seen`) and at
least one after it. -/
def specCommaShapeAux : Bool → List Char → Bool
  | _, [] => false
  | seen, c :: cs =>
    (seen && c = ',' && decide (cs ≠ [])) || specCommaShapeAux true cs

/-- Modelled from the spec's words: the location "shape of at least one
comma separating two non-empty text parts". -/
def specCommaShape (l : List Char) : Bool :=
  specCommaShapeAux false l

/-- `ExtractedData` (models.py). -/
structure ExtractedData where
  license_plate : Option String := none
  vehicle_type : Option String := none
  vehicle_color : Option String := none
  location : Option String := none
  coordinates_approx : Option (List Rat) := none
deriving Repr, DecidableEq

/-- Building an `ExtractedData` from raw field values: pydantic runs the
`mode='before'` validators on `vehicle_type` and `location` at construction
time. -/
def ExtractedData.make (lp vt vc loc : Option String) : ExtractedData :=
  { license_plate := lp
    vehicle_type := normalize_vehicle_type vt
    vehicle_color := vc
    location := validate_location_format loc
    coordinates_approx := none }

/-- A Python `datetime`: calendar fields plus an optional UTC offset in
minutes (`none` models a naive datetime, `some 0` a UTC-aware one). -/
structure PyDateTime where
  year : Nat
  month : Nat
  day : Nat
  hour : Nat
  minute : Nat
  second : Nat
  microsecond : Nat
  tzOffsetMinutes : Option Int
deriving Repr, DecidableEq

/-- `MediaData` (models.py). -/
structure MediaData where
  image_url : Option String := none
deriving Repr, DecidableEq

/-- `SightingCandidate` (models.py); `confidence_score` (a Python float) is
modelled as `Rat`. -/
structure SightingCandidate where
  source_id : String
  source_url : String
  timestamp_detected : PyDateTime
  confidence_score : Rat := 0
  extracted_data : ExtractedData := {}
  media : MediaData := {}
  status : String := "PENDING_REVIEW"
  raw_text : String := ""
deriving Repr, DecidableEq

/-! ## graph_nodes.py: route_candidates_node -/

/-- The routing predicate of `route_candidates_node` (graph_nodes.py):
`candidate.confidence_score >= 0.5 and candidate.status != "REJECTED"`. -/
def routeValid (c : SightingCandidate) : Bool :=
  decide (mkRat 1 2 ≤ c.confidence_score) && decide (c.status ≠ "REJECTED")

/-- `route_candidates_node` (graph_nodes.py): partition the analyzed list,
preserving order, into the `valid` and `rejected` lists. -/
def route_candidates_node : List SightingCandidate →
    List SightingCandidate × List SightingCandidate
  | [] => ([], [])
  | c :: rest =>
    let p := route_candidates_node rest
    if routeValid c then (c :: p.1, p.2) else (p.1, c :: p.2)

/-! ## llm_analyzer.py -/

/-- The JSON object parsed from a model response.  Each schema key is
optionally present (`none` = key absent, so that the Python lookup
`result["..."]` raises `KeyError`); for the extracted fields the inner
`Option` is JSON `null`.  JSON numbers are modelled as `Rat`. -/
structure RawVerdict where
  is_valid_sighting : Option Bool := none
  confidence : Option Rat := none
  license_plate : Option (Option String) := none
  vehicle_type : Option (Option String) := none
  vehicle_color : Option (Option String) := none
  location : Option (Option String) := none
  reasoning : Option String := none
deriving Repr, DecidableEq

/-- What one model API call does for one candidate, abstracting the network
and the OpenAI client: the call raises in transport, returns empty content,
returns content that is not JSON (after the markdown fence trimming), or
returns content parsing to a JSON object. -/
inductive ModelOutcome where
  | transportError (msg : String)
  | emptyResponse
  | malformedJson
  | parsed (verdict : RawVerdict)
deriving Repr, DecidableEq

/-- The synthetic negative verdict the `except` arms of
`LLMAnalyzer._call_openai` build (note it carries no `vehicle_color` key). -/
def syntheticVerdict (why : String) : RawVerdict :=
  { is_valid_sighting := some false
    confidence := some 0
    license_plate := some none
    vehicle_type := some none
    location := some none
    reasoning := some why }

/-- `LLMAnalyzer._call_openai` (llm_analyzer.py): every failure class is
caught inside the method — a `json.JSONDecodeError` yields the
"JSON parse error" synthetic verdict, any other exception (transport
failure, or the `ValueError` raised on empty content) yields the
"API error: ..." one — so the method never raises. -/
def call_openai : ModelOutcome → RawVerdict
  | .transportError msg => syntheticVerdict ("API error: " ++ msg)
  | .emptyResponse => syntheticVerdict "API error: Empty response from OpenAI"
  | .malformedJson => syntheticVerdict "JSON parse error"
  | .parsed v => v

/-- The failure classes absorbed inside `_call_openai`'s try/except. -/
def ModelOutcome.isApiFailure : ModelOutcome → Bool
  | .transportError _ => true
  | .emptyResponse => true
  | .malformedJson => true
  | .parsed _ => false

/-- `LLMAnalyzer.analyze` (llm_analyzer.py): update the candidate from the
verdict dictionary.  `result["is_valid_sighting"]` and
`result["confidence"]` raise `KeyError` when absent (`Except.error`); the
extracted fields use `result.get(...)`, so absent and `null` both give
`None`. -/
def analyze (candidate : SightingCandidate) (result : RawVerdict) :
    Except String SightingCandidate :=
  match result.is_valid_sighting with
  | none => .error "KeyError: is_valid_sighting"
  | some b =>
    match result.confidence with
    | none => .error "KeyError: confidence"
    | some conf =>
      if b then
        .ok { candidate with
              confidence_score := conf
              extracted_data := ExtractedData.make
                result.license_plate.join result.vehicle_type.join
                result.vehicle_color.join result.location.join }
      else
        .ok { candidate with confidence_score := conf, status := "REJECTED" }

/-- Record equality of `Except` results is decidable (used to evaluate
concrete analyzer runs). -/
instance {e a : Type} [DecidableEq e] [DecidableEq a] : DecidableEq (Except e a) :=
  fun x y =>
    match x, y with
    | .ok u, .ok v => decidable_of_iff (u = v) (by simp)
    | .error u, .error v => decidable_of_iff (u = v) (by simp)
    | .ok _, .error _ => isFalse (by simp)
    | .error _, .ok _ => isFalse (by simp)

/-- One iteration of the loop in `analyze_candidates_node`
(graph_nodes.py): the per-candidate try/except.  Returns the entry appended
to `analyzed` and the (zero or one) error strings appended to `errors`. -/
def analyzeStep (c : SightingCandidate) (o : ModelOutcome) :
    SightingCandidate × List String :=
  match analyze c (call_openai o) with
  | .ok r => (r, [])
  | .error e =>
    ({ c with confidence_score := 0, status := "ERROR" },
     ["Analysis error for " ++ c.source_id ++ ": " ++ e])

/-- `analyze_candidates_node` (graph_nodes.py) over a batch: each fetched
candidate paired with the outcome its model API call produces.  Returns the
`analyzed` list and the node's new error list, both in processing order. -/
def analyze_candidates_node : List (SightingCandidate × ModelOutcome) →
    List SightingCandidate × List String
  | [] => ([], [])
  | (c, o) :: rest =>
    let s := analyzeStep c o
    let p := analyze_candidates_node rest
    (s.1 :: p.1, s.2 ++ p.2)

/-! ## main.py: the persistence merge -/

/-- `existing[existing_index] = candidate_dict` where `existing_index` is
`next(i for i, c in enumerate(existing) if c['source_id'] == source_id)`:
replace the first record whose `source_id` matches the candidate's. -/
def replaceFirst (store : List SightingCandidate) (c : SightingCandidate) :
    List SightingCandidate :=
  match store with
  | [] => []
  | r :: rest =>
    if r.source_id = c.source_id then c :: rest else r :: replaceFirst rest c

/-- One iteration of the loop in `RobotaxiAgent._save_candidates`
(main.py).  Membership is tested against `existing_dict`, which is built
once from the store as loaded and never updated, so `origIds` is fixed;
replacement indexes into the current list. -/
def upsertStep (origIds : List String) (store : List SightingCandidate)
    (c : SightingCandidate) : List SightingCandidate :=
  if origIds.contains c.source_id then replaceFirst store c else store ++ [c]

/-- `RobotaxiAgent._save_candidates` (main.py) as the pure merge it performs
between loading the store and rewriting the file: the stored JSON records
are represented by the candidates themselves (`model_dump` is faithful). -/
def save_candidates (existing : List SightingCandidate)
    (candidates : List SightingCandidate) : List SightingCandidate :=
  candidates.foldl (upsertStep (existing.map (·.source_id))) existing

/-! ## main.py: the last-check watermark -/

/-- The decimal digit character for `n < 10`. -/
def digitChar (n : Nat) : Char :=
  Char.ofNat (48 + n)

/-- Two-digit zero-padded decimal, as `"%02d"` prints a value below 100. -/
def pad2 (n : Nat) : List Char :=
  [digitChar (n / 10), digitChar (n % 10)]

/-- Four-digit zero-padded decimal, as `"%04d"` prints a value below 10000. -/
def pad4 (n : Nat) : List Char :=
  [digitChar (n / 1000), digitChar (n / 100 % 10), digitChar (n / 10 % 10),
   digitChar (n % 10)]

/-- Six-digit zero-padded decimal, as `"%06d"` prints a value below 10^6. -/
def pad6 (n : Nat) : List Char :=
  [digitChar (n / 100000), digitChar (n / 10000 % 10), digitChar (n / 1000 % 10),
   digitChar (n / 100 % 10), digitChar (n / 10 % 10), digitChar (n % 10)]

/-- The `±HH:MM` offset suffix `datetime.isoformat()` prints for an aware
datetime whose offset is a whole number of minutes. -/
def isoOffset (m : Int) : List Char :=
  (if m < 0 then '-' else '+') ::
    (pad2 (m.natAbs / 60) ++ ':' :: pad2 (m.natAbs % 60))

/-- Python `datetime.isoformat()`: `YYYY-MM-DDTHH:MM:SS`, the `.ffffff`
fraction exactly when the microsecond field is nonzero, and the offset
suffix exactly when the datetime is aware. -/
def isoformat (dt : PyDateTime) : List Char :=
  pad4 dt.year ++ '-' :: pad2 dt.month ++ '-' :: pad2 dt.day ++
    'T' :: pad2 dt.hour ++ ':' :: pad2 dt.minute ++ ':' :: pad2 dt.second ++
    (if dt.microsecond = 0 then [] else '.' :: pad6 dt.microsecond) ++
    (match dt.tzOffsetMinutes with
     | none => []
     | some m => isoOffset m)

/-- `RobotaxiAgent._save_last_check` (main.py) serializes the watermark as
`timestamp.isoformat() + "Z"`. -/
def save_last_check (dt : PyDateTime) : List Char :=
  isoformat dt ++ ['Z']

/-- The numeric value of a decimal digit character. -/
def parseDigit (c : Char) : Option Nat :=
  if c.isDigit then some (c.toNat - 48) else none

/-- Consume exactly two decimal digits. -/
def parse2 : List Char → Option (Nat × List Char)
  | a :: b :: rest => do
    let x ← parseDigit a
    let y ← parseDigit b
    some (10 * x + y, rest)
  | _ => none

/-- Consume exactly four decimal digits. -/
def parse4 : List Char → Option (Nat × List Char)
  | a :: b :: c :: d :: rest => do
    let x ← parseDigit a
    let y ← parseDigit b
    let z ← parseDigit c
    let w ← parseDigit d
    some (1000 * x + 100 * y + 10 * z + w, rest)
  | _ => none

/-- Consume exactly six decimal digits. -/
def parse6 : List Char → Option (Nat × List Char)
  | a :: b :: c :: d :: e :: f :: rest => do
    let u ← parseDigit a
    let v ← parseDigit b
    let w ← parseDigit c
    let x ← parseDigit d
    let y ← parseDigit e
    let z ← parseDigit f
    some (100000 * u + 10000 * v + 1000 * w + 100 * x + 10 * y + z, rest)
  | _ => none

/-- Consume one expected character. -/
def expectChar (ch : Char) : List Char → Option (List Char)
  | c :: rest => if c = ch then some rest else none
  | [] => none

/-- The optional fractional-seconds part: a `'.'` introduces the (six)
fraction digits, anything else leaves zero microseconds. -/
def parseFrac : List Char → Option (Nat × List Char)
  | '.' :: rest => parse6 rest
  | r => some (0, r)

/-- The optional `±HH:MM` UTC-offset suffix. -/
def parseOffset : List Char → Option (Option Int × List Char)
  | '+' :: rest => do
    let (h, r) ← parse2 rest
    let r ← expectChar ':' r
    let (m, r) ← parse2 r
    some (some ((60 * h + m : Nat) : Int), r)
  | '-' :: rest => do
    let (h, r) ← parse2 rest
    let r ← expectChar ':' r
    let (m, r) ← parse2 r
    some (some (-((60 * h + m : Nat) : Int)), r)
  | r => some (none, r)

/-- Gregorian leap year, as `datetime` validates the day field. -/
def isLeapYear (y : Nat) : Bool :=
  y % 4 = 0 && (y % 100 ≠ 0 || y % 400 = 0)

/-- Days in a month of a year. -/
def daysInMonth (y m : Nat) : Nat :=
  if m = 2 then (if isLeapYear y then 29 else 28)
  else if m = 4 ∨ m = 6 ∨ m = 9 ∨ m = 11 then 30
  else 31

/-- The range checks `datetime.fromisoformat` applies to parsed fields. -/
def validFields (y mo d h mi s us : Nat) : Bool :=
  1 ≤ y && y ≤ 9999 && 1 ≤ mo && mo ≤ 12 && 1 ≤ d && d ≤ daysInMonth y mo &&
    h < 24 && mi < 60 && s < 60 && us < 1000000

/-- Python `datetime.fromisoformat`, restricted to the string shapes the
repository produces and reads back (`YYYY-MM-DDTHH:MM:SS`, optionally a
six-digit fraction, optionally a `±HH:MM` offset); any other input raises
`ValueError`, modelled as `none`. -/
def fromisoformat (l : List Char) : Option PyDateTime := do
  let (y, r) ← parse4 l
  let r ← expectChar '-' r
  let (mo, r) ← parse2 r
  let r ← expectChar '-' r
  let (d, r) ← parse2 r
  let r ← expectChar 'T' r
  let (h, r) ← parse2 r
  let r ← expectChar ':' r
  let (mi, r) ← parse2 r
  let r ← expectChar ':' r
  let (s, r) ← parse2 r
  let (us, r) ← parseFrac r
  let (tz, r) ← parseOffset r
  if r = [] ∧ validFields y mo d h mi s us then
    some ⟨y, mo, d, h, mi, s, us, tz⟩
  else none

/-- Python `last_check_str.count('+00:00')`, specialized to the loader's
needle: `str.count` scans left to right counting non-overlapping
occurrences, resuming after the matched text; the `skip` counter is the
number of characters of a match still to be passed over. -/
def countAux : Nat → List Char → Nat
  | _ + 1, [] => 0
  | skip + 1, _ :: rest => countAux skip rest
  | 0, [] => 0
  | 0, c :: rest =>
    if ['+', '0', '0', ':', '0', '0'].isPrefixOf (c :: rest) then
      1 + countAux 5 rest
    else countAux 0 rest

/-- `last_check_str.count('+00:00')`: the scan started outside a match. -/
def countOffsetSub (l : List Char) : Nat :=
  countAux 0 l

/-- Python `last_check_str.replace('+00:00+00:00', '+00:00')`, specialized
to the loader's fixed arguments: `str.replace` rewrites every
non-overlapping occurrence scanning left to right, resuming after the
replacement; the `skip` counter is the number of characters of a matched
occurrence still to be consumed. -/
def collapseAux : Nat → List Char → List Char
  | _ + 1, [] => []
  | skip + 1, _ :: rest => collapseAux skip rest
  | 0, [] => []
  | 0, c :: rest =>
    if ['+', '0', '0', ':', '0', '0',
        '+', '0', '0', ':', '0', '0'].isPrefixOf (c :: rest) then
      '+' :: '0' :: '0' :: ':' :: '0' :: '0' :: collapseAux 11 rest
    else c :: collapseAux 0 rest

/-- `last_check_str.replace('+00:00+00:00', '+00:00')`: the scan started
outside a match. -/
def collapseOffsetPair (l : List Char) : List Char :=
  collapseAux 0 l

/-- `_load_last_check` step: `if last_check_str.endswith('Z'):
last_check_str = last_check_str[:-1] + '+00:00'`. -/
def zToOffset (l : List Char) : List Char :=
  if ['Z'].isSuffixOf l then l.dropLast ++ "+00:00".data else l

/-- `_load_last_check` step: `if last_check_str.count('+00:00') > 1:
last_check_str = last_check_str.replace('+00:00+00:00', '+00:00')`. -/
def dedupOffset (l : List Char) : List Char :=
  if 1 < countOffsetSub l then collapseOffsetPair l else l

/-- The parsing core of `RobotaxiAgent._load_last_check` (main.py), applied
to the `last_check` string loaded from the state file: strip, rewrite a
trailing `'Z'` to `+00:00`, collapse a duplicated `+00:00+00:00` suffix,
parse with `fromisoformat` (a `ValueError` is caught and yields `none`), and
default a naive result to UTC. -/
def parse_last_check (s : String) : Option PyDateTime :=
  match fromisoformat (dedupOffset (zToOffset (pyStripList s.data))) with
  | none => none
  | some dt =>
    if dt.tzOffsetMinutes = none then some { dt with tzOffsetMinutes := some 0 }
    else some dt

/-! ## config.py and reddit_poller.py -/

/-- `Config.KEYWORDS` (config.py). -/
def KEYWORDS : List String :=
  ["robotaxi", "cybercab", "camouflage", "lidar", "test vehicle", "prototype",
   "manufacturer plate", "mfg plate", "dst plate"]

/-- `Config.SUBREDDITS` (config.py). -/
def SUBREDDITS : List String :=
  ["TeslaLounge", "SelfDrivingCars", "teslamotors"]

/-- The fields of a raw Reddit post JSON object that the poller reads
directly; the nested media fields consulted only by `_extract_image_url`
stay inside the abstract `extractImage` parameter below. -/
structure RedditPost where
  id : String := ""
  title : String := ""
  selftext : String := ""
  permalink : String := ""
  created_utc : Int := 0
deriving Repr, DecidableEq

/-- `RedditPoller._contains_keywords` (reddit_poller.py), with
`self.keywords` being `Config.KEYWORDS` lower-cased in `__init__`. -/
def contains_keywords (text : String) : Bool :=
  if text = "" then false
  else
    let text_lower := pyLower text
    (KEYWORDS.map pyLower).any fun kw => containsSub kw.data text_lower.data

/-- The `f"{title} {selftext}"` concatenation both filter sites build. -/
def combinedText (p : RedditPost) : String :=
  p.title ++ " " ++ p.selftext

/-- `RedditPoller._post_to_candidate` (reddit_poller.py).  The image
extraction `_extract_image_url` (a traversal of the raw post JSON that the
claims never inspect) is the `extractImage` parameter, and
`datetime.now(UTC)` is the `now` parameter. -/
def post_to_candidate (extractImage : RedditPost → Option String)
    (now : PyDateTime) (p : RedditPost) : SightingCandidate :=
  { source_id := "reddit_" ++ p.id
    source_url := "https://reddit.com" ++ p.permalink
    timestamp_detected := now
    raw_text := ⟨(combinedText p).data.take 500⟩
    media := { image_url := extractImage p } }

/-- `RedditPoller.fetch_recent_posts` (reddit_poller.py): for each
configured subreddit, `_fetch_subreddit_json` (network fetch and JSON
decode, abstracted as `fetch`; `none` models its error-return) yields raw
posts; a failed or empty fetch is skipped (`if not posts: continue`), and
each remaining post is kept only when `_contains_keywords` accepts the
title/selftext concatenation, then converted and appended in order. -/
def fetch_recent_posts (fetch : String → Option (List RedditPost))
    (extractImage : RedditPost → Option String) (now : PyDateTime) :
    List SightingCandidate :=
  SUBREDDITS.foldl
    (fun acc sub =>
      match fetch sub with
      | none => acc
      | some posts =>
        if posts = [] then acc
        else
          acc ++ (posts.filter fun p => contains_keywords (combinedText p)).map
            (post_to_candidate extractImage now))
    []

/-! ## Test fixtures (concrete values used by witnesses and
counterexamples) -/

/-- A fixed creation timestamp for sample candidates. -/
def ts0 : PyDateTime :=
  ⟨2025, 1, 1, 0, 0, 0, 0, some 0⟩

/-- A sample candidate with the given id, confidence and status. -/
def mkCand (sid : String) (conf : Rat) (st : String) : SightingCandidate :=
  { source_id := sid
    source_url := "https://example.org/post"
    timestamp_detected := ts0
    confidence_score := conf
    status := st }

/-- A sample raw Reddit post whose text matches the keyword list. -/
def post0 : RedditPost :=
  { id := "abc1"
    title := "Robotaxi spotted downtown"
    selftext := "it had a camouflage wrap"
    permalink := "/r/TeslaLounge/abc1" }

/-! ## Routing (claims about route_candidates_node) -/

theorem route_eq_filter (l : List SightingCandidate) :
    route_candidates_node l =
      (l.filter routeValid, l.filter fun c => !routeValid c) := by
  induction l with
  | nil => rfl
  | cons c rest ih =>
    simp only [route_candidates_node, ih, List.filter_cons]
    cases h : routeValid c <;> simp [h]

/-- C4: a candidate with status REJECTED is never put in the valid
partition by `route_candidates_node`, whatever its confidence score. -/
theorem rejected_never_valid (analyzed : List SightingCandidate)
    (c : SightingCandidate) (hmem : c ∈ (route_candidates_node analyzed).1) :
    c.status ≠ "REJECTED" := by
  rw [route_eq_filter] at hmem
  have h := (List.mem_filter.mp hmem).2
  simp only [routeValid, Bool.and_eq_true, decide_eq_true_eq] at h
  exact h.2

theorem rejected_never_valid_witness :
    mkCand "reddit_1" (mkRat 9 10) "PENDING_REVIEW" ∈
      (route_candidates_node [mkCand "reddit_1" (mkRat 9 10) "PENDING_REVIEW"]).1 ∧
    (mkCand "reddit_1" (mkRat 9 10) "PENDING_REVIEW").status ≠ "REJECTED" :=
  ⟨by decide,
    rejected_never_valid [mkCand "reddit_1" (mkRat 9 10) "PENDING_REVIEW"]
      (mkCand "reddit_1" (mkRat 9 10) "PENDING_REVIEW") (by decide)⟩

/-- C5: routing partitions the analyzed list into exactly the candidates
with confidence at least 0.5 and status other than REJECTED, and all the
others; nothing is dropped or duplicated. -/
theorem route_partitions (analyzed : List SightingCandidate) :
    (∀ c, c ∈ (route_candidates_node analyzed).1 ↔
      c ∈ analyzed ∧ (mkRat 1 2 ≤ c.confidence_score ∧ c.status ≠ "REJECTED")) ∧
    (∀ c, c ∈ (route_candidates_node analyzed).2 ↔
      c ∈ analyzed ∧ ¬(mkRat 1 2 ≤ c.confidence_score ∧ c.status ≠ "REJECTED")) ∧
    List.Perm
      ((route_candidates_node analyzed).1 ++ (route_candidates_node analyzed).2)
      analyzed := by
  rw [route_eq_filter]
  refine ⟨fun c => ?_, fun c => ?_, List.filter_append_perm routeValid analyzed⟩
  · simp [List.mem_filter, routeValid, and_assoc]
  · simp only [List.mem_filter, routeValid, Bool.not_eq_true', Bool.and_eq_true,
      decide_eq_true_eq, Bool.and_eq_false_iff, decide_eq_false_iff_not, not_not,
      not_le, not_and_or]

/-! ## Watermark normalization (C6) -/

/-- C6: the trailing-`Z` spelling and the duplicated-offset spelling of the
watermark both parse successfully and to the same UTC-aware instant
(midnight 2025-01-01 UTC, offset `some 0`). -/
theorem watermark_normalization :
    parse_last_check "2025-01-01T00:00:00Z" =
      some ⟨2025, 1, 1, 0, 0, 0, 0, some 0⟩ ∧
    parse_last_check "2025-01-01T00:00:00+00:00+00:00" =
      some ⟨2025, 1, 1, 0, 0, 0, 0, some 0⟩ :=
  ⟨by decide, by decide⟩

/-! ## Vehicle-type normalization (C7) -/

/-- C7: `normalize_vehicle_type` sends "Cyber Cab" and "CYBERCAB" to
"cybercab", "Model-Y" to "model y", "Semi" to `None`; every input whose
lower-cased stripped form is not one of the accepted spellings collapses to
`None`; and the result is always "cybercab", "model y" or `None`. -/
theorem vehicle_type_normalized (v : Option String) :
    (normalize_vehicle_type v = some "cybercab" ∨
      normalize_vehicle_type v = some "model y" ∨
      normalize_vehicle_type v = none) ∧
    (∀ w, v = some w →
      pyStrip (pyLower w) ∉
        (["cybercab", "cyber cab", "model y", "modely", "model-y"] : List String) →
      normalize_vehicle_type v = none) ∧
    normalize_vehicle_type (some "Cyber Cab") = some "cybercab" ∧
    normalize_vehicle_type (some "CYBERCAB") = some "cybercab" ∧
    normalize_vehicle_type (some "Model-Y") = some "model y" ∧
    normalize_vehicle_type (some "Semi") = none := by
  refine ⟨?_, ?_, by decide, by decide, by decide, by decide⟩
  · cases v with
    | none => simp [normalize_vehicle_type]
    | some w =>
      simp only [normalize_vehicle_type]
      split_ifs <;> simp
  · rintro w rfl hw
    simp only [List.mem_cons, List.not_mem_nil, or_false, not_or] at hw
    obtain ⟨h1, h2, h3, h4, h5⟩ := hw
    simp [normalize_vehicle_type, h1, h2, h3, h4, h5]

theorem vehicle_type_normalized_witness :
    pyStrip (pyLower "Semi") ∉
      (["cybercab", "cyber cab", "model y", "modely", "model-y"] : List String) ∧
    normalize_vehicle_type (some "Semi") = none :=
  ⟨by decide, (vehicle_type_normalized (some "Semi")).2.1 "Semi" rfl (by decide)⟩

/-! ## Location validation (C8) -/

/-- C8 counterexample: `"ab\ncd, EF"` is its own stripped form and has a
comma separating the two non-empty parts `"ab\ncd"` and `" EF"`, yet the
validator collapses it to `None`, because Python's regex `.` (no DOTALL)
does not match the newline inside the first part. -/
theorem location_shape_counterexample :
    "ab\ncd, EF" = "ab\ncd" ++ "," ++ " EF" ∧
    "ab\ncd" ≠ "" ∧ " EF" ≠ "" ∧
    pyStrip "ab\ncd, EF" = "ab\ncd, EF" ∧
    validate_location_format (some "ab\ncd, EF") = none :=
  ⟨by decide, by decide, by decide, by decide, by decide⟩

theorem tailMatch_of_noNewline (l : List Char) (h : noNewline l = true) :
    tailMatch l = decide (l ≠ []) := by
  cases l with
  | nil => rfl
  | cons c cs =>
    simp only [noNewline, List.all_cons, Bool.and_eq_true] at h
    show ((decide (c ≠ '\n') && noNewline cs) || (pySpace c && tailMatch cs)) =
      decide ((c :: cs : List Char) ≠ [])
    simp only [noNewline, h.1, h.2, Bool.true_and, Bool.true_or]
    simp

theorem locMatchAux_of_noNewline (l : List Char) (h : noNewline l = true) :
    ∀ seen, locMatchAux seen l = specCommaShapeAux seen l := by
  induction l with
  | nil => intro seen; rfl
  | cons c cs ih =>
    intro seen
    simp only [noNewline, List.all_cons, Bool.and_eq_true] at h
    have hcs : noNewline cs = true := h.2
    simp only [locMatchAux, specCommaShapeAux,
      tailMatch_of_noNewline cs hcs, ih hcs, h.1, Bool.true_and]

/-- C8 (amended): on an input whose stripped form contains no newline, the
validator accepts (returning the stripped string) exactly when the stripped
string has the "text, text" shape — at least one comma with non-empty text
on both sides; every other such input collapses to `None`.  (An input with
a newline can have the shape yet still be collapsed, as the counterexample
shows.)  The spec's concrete examples hold unconditionally. -/
theorem location_validation (v : String)
    (hnl : noNewline (pyStrip v).data = true) :
    (validate_location_format (some v) = some (pyStrip v) ↔
      specCommaShape (pyStrip v).data = true) ∧
    (validate_location_format (some v) = some (pyStrip v) ∨
      validate_location_format (some v) = none) ∧
    validate_location_format (some "Palo Alto, CA") = some "Palo Alto, CA" ∧
    validate_location_format (some "Austin") = none := by
  refine ⟨?_, ?_, by decide, by decide⟩
  · simp only [validate_location_format, locMatch, specCommaShape,
      locMatchAux_of_noNewline _ hnl false]
    split_ifs with hcond
    · simp [hcond]
    · simp [hcond]
  · simp only [validate_location_format]
    split_ifs <;> simp

theorem location_validation_witness :
    noNewline (pyStrip "Palo Alto, CA").data = true ∧
    (validate_location_format (some "Palo Alto, CA") =
        some (pyStrip "Palo Alto, CA") ↔
      specCommaShape (pyStrip "Palo Alto, CA").data = true) :=
  ⟨by decide, (location_validation "Palo Alto, CA" (by decide)).1⟩

/-! ## Analyzer error handling (C1, C2) -/

theorem analyze_node_cons (c : SightingCandidate) (o : ModelOutcome)
    (rest : List (SightingCandidate × ModelOutcome)) :
    analyze_candidates_node ((c, o) :: rest) =
      ((analyzeStep c o).1 :: (analyze_candidates_node rest).1,
       (analyzeStep c o).2 ++ (analyze_candidates_node rest).2) :=
  rfl

theorem analyze_node_append (xs ys : List (SightingCandidate × ModelOutcome)) :
    analyze_candidates_node (xs ++ ys) =
      ((analyze_candidates_node xs).1 ++ (analyze_candidates_node ys).1,
       (analyze_candidates_node xs).2 ++ (analyze_candidates_node ys).2) := by
  induction xs with
  | nil => simp [analyze_candidates_node]
  | cons p rest ih =>
    obtain ⟨c, o⟩ := p
    simp [analyze_node_cons, ih]

theorem analyzeStep_apiFailure (c : SightingCandidate) (o : ModelOutcome)
    (h : o.isApiFailure = true) :
    analyzeStep c o =
      ({ c with confidence_score := 0, status := "REJECTED" }, []) := by
  cases o with
  | transportError msg => rfl
  | emptyResponse => rfl
  | malformedJson => rfl
  | parsed v => simp [ModelOutcome.isApiFailure] at h

theorem analyzeStep_error (c : SightingCandidate) (o : ModelOutcome) (e : String)
    (herr : analyze c (call_openai o) = Except.error e) :
    analyzeStep c o =
      ({ c with confidence_score := 0, status := "ERROR" },
       ["Analysis error for " ++ c.source_id ++ ": " ++ e]) := by
  simp [analyzeStep, herr]

/-- C1 counterexample: for a candidate whose model API call raises a
transport exception, `_call_openai` absorbs the failure, so the orchestrator
records the candidate as REJECTED (not ERROR) and appends no error string —
contradicting the claimed ERROR status and single error entry. -/
theorem analyze_api_failure_counterexample :
    (ModelOutcome.transportError "boom").isApiFailure = true ∧
    analyze_candidates_node
        [(mkCand "reddit_1" 0 "PENDING_REVIEW", ModelOutcome.transportError "boom")] =
      ([mkCand "reddit_1" 0 "REJECTED"], []) :=
  ⟨by decide, by decide⟩

/-- C1 (amended): a candidate whose model API call fails (transport error,
empty response, or malformed JSON) still yields exactly one entry in the
analyzed list, but with status REJECTED, confidence 0, and no new error
string — the failure is absorbed inside `_call_openai`.  Status ERROR with
confidence 0 and exactly one new error string arises exactly when
`analyze` itself raises (e.g. the parsed verdict lacks a required key). -/
theorem analyze_node_error_handling (c : SightingCandidate) (o : ModelOutcome)
    (pre post : List (SightingCandidate × ModelOutcome)) :
    (o.isApiFailure = true →
      analyze_candidates_node (pre ++ (c, o) :: post) =
        ((analyze_candidates_node pre).1 ++
          ({ c with confidence_score := 0, status := "REJECTED" } ::
            (analyze_candidates_node post).1),
         (analyze_candidates_node pre).2 ++ (analyze_candidates_node post).2)) ∧
    (∀ e, analyze c (call_openai o) = Except.error e →
      analyze_candidates_node (pre ++ (c, o) :: post) =
        ((analyze_candidates_node pre).1 ++
          ({ c with confidence_score := 0, status := "ERROR" } ::
            (analyze_candidates_node post).1),
         (analyze_candidates_node pre).2 ++
          (("Analysis error for " ++ c.source_id ++ ": " ++ e) ::
            (analyze_candidates_node post).2))) := by
  constructor
  · intro hfail
    rw [analyze_node_append, analyze_node_cons, analyzeStep_apiFailure c o hfail]
    rfl
  · intro e herr
    rw [analyze_node_append, analyze_node_cons, analyzeStep_error c o e herr]
    rfl

theorem analyze_node_error_handling_witness :
    (ModelOutcome.transportError "boom").isApiFailure = true ∧
    analyze_candidates_node
        [(mkCand "reddit_2" 0 "PENDING_REVIEW", ModelOutcome.transportError "boom")] =
      ([{ mkCand "reddit_2" 0 "PENDING_REVIEW" with
          confidence_score := 0, status := "REJECTED" }], []) :=
  ⟨rfl, by
    simpa [analyze_candidates_node] using
      (analyze_node_error_handling (mkCand "reddit_2" 0 "PENDING_REVIEW")
        (ModelOutcome.transportError "boom") [] []).1 rfl⟩

/-- C2 counterexample: `analyze` copies the model-reported confidence
verbatim, so a parsed verdict carrying confidence 3/2 leaves the candidate
with confidence_score 3/2, outside [0,1]. -/
theorem confidence_range_counterexample :
    analyze (mkCand "reddit_3" 0 "PENDING_REVIEW")
        { is_valid_sighting := some true, confidence := some (mkRat 3 2) } =
      Except.ok { mkCand "reddit_3" 0 "PENDING_REVIEW" with
        confidence_score := mkRat 3 2 } ∧
    ¬ (mkRat 3 2 ≤ (1 : Rat)) :=
  ⟨by decide, by decide⟩

/-- C2 (amended): the code performs no clamping, so the invariant holds
exactly when the parsed verdict's confidence lies in [0,1] (as the prompt
instructs the model): under that hypothesis, any candidate `analyze`
returns has confidence_score in [0,1]. -/
theorem confidence_in_range (c r : SightingCandidate) (v : RawVerdict)
    (conf : Rat) (hconf : v.confidence = some conf)
    (h0 : 0 ≤ conf) (h1 : conf ≤ 1)
    (hok : analyze c v = Except.ok r) :
    0 ≤ r.confidence_score ∧ r.confidence_score ≤ 1 := by
  cases hb : v.is_valid_sighting with
  | none => simp [analyze, hb] at hok
  | some b =>
    cases b <;>
    · simp only [analyze, hb, hconf, Except.ok.injEq, if_true, if_false,
        Bool.false_eq_true, reduceIte] at hok
      subst hok
      exact ⟨h0, h1⟩

theorem confidence_in_range_witness :
    ({ is_valid_sighting := some true, confidence := some (mkRat 3 4) } :
        RawVerdict).confidence = some (mkRat 3 4) ∧
    (0 : Rat) ≤ mkRat 3 4 ∧ mkRat 3 4 ≤ (1 : Rat) ∧
    analyze (mkCand "reddit_4" 0 "PENDING_REVIEW")
        { is_valid_sighting := some true, confidence := some (mkRat 3 4) } =
      Except.ok { mkCand "reddit_4" 0 "PENDING_REVIEW" with
        confidence_score := mkRat 3 4 } ∧
    0 ≤ ({ mkCand "reddit_4" 0 "PENDING_REVIEW" with
        confidence_score := mkRat 3 4 } : SightingCandidate).confidence_score ∧
    ({ mkCand "reddit_4" 0 "PENDING_REVIEW" with
        confidence_score := mkRat 3 4 } : SightingCandidate).confidence_score ≤ 1 :=
  ⟨rfl, by decide, by decide, by decide,
    confidence_in_range (mkCand "reddit_4" 0 "PENDING_REVIEW")
      { mkCand "reddit_4" 0 "PENDING_REVIEW" with confidence_score := mkRat 3 4 }
      { is_valid_sighting := some true, confidence := some (mkRat 3 4) }
      (mkRat 3 4) rfl (by decide) (by decide) (by decide)⟩

/-! ## Persistence merge (C3) -/

theorem replaceFirst_map_sid (store : List SightingCandidate)
    (c : SightingCandidate) :
    (replaceFirst store c).map (·.source_id) = store.map (·.source_id) := by
  induction store with
  | nil => rfl
  | cons r rest ih =>
    by_cases hr : r.source_id = c.source_id
    · simp [replaceFirst, hr]
    · simp [replaceFirst, hr, ih]

theorem find?_replaceFirst_self (store : List SightingCandidate)
    (c : SightingCandidate) (h : c.source_id ∈ store.map (·.source_id)) :
    (replaceFirst store c).find? (fun r => decide (r.source_id = c.source_id)) =
      some c := by
  induction store with
  | nil => simp at h
  | cons r rest ih =>
    by_cases hr : r.source_id = c.source_id
    · simp [replaceFirst, hr]
    · have h' : c.source_id ∈ rest.map (·.source_id) := by
        rcases List.mem_cons.mp h with h | h
        · exact absurd h.symm hr
        · exact h
      simp [replaceFirst, hr, List.find?_cons, ih h', Ne.symm hr]

theorem find?_replaceFirst_other (store : List SightingCandidate)
    (c : SightingCandidate) (s : String) (h : s ≠ c.source_id) :
    (replaceFirst store c).find? (fun r => decide (r.source_id = s)) =
      store.find? (fun r => decide (r.source_id = s)) := by
  induction store with
  | nil => rfl
  | cons r rest ih =>
    by_cases hr : r.source_id = c.source_id
    · have hcs : ¬ c.source_id = s := fun hcs => h (hcs.symm)
      simp [replaceFirst, hr, List.find?_cons, hcs, hr ▸ hcs]
    · simp [replaceFirst, hr, List.find?_cons, ih]

theorem find?_foldl_untouched (origIds : List String)
    (rest : List SightingCandidate) (store : List SightingCandidate) (s : String)
    (h : ∀ d ∈ rest, d.source_id ≠ s) :
    (rest.foldl (upsertStep origIds) store).find?
        (fun r => decide (r.source_id = s)) =
      store.find? (fun r => decide (r.source_id = s)) := by
  induction rest generalizing store with
  | nil => rfl
  | cons d rest ih =>
    rw [List.foldl_cons, ih _ fun x hx => h x (List.mem_cons_of_mem d hx)]
    have hds : d.source_id ≠ s := h d (List.mem_cons_self d rest)
    by_cases hmem : origIds.contains d.source_id
    · rw [upsertStep, if_pos hmem, find?_replaceFirst_other _ _ _ (Ne.symm hds)]
    · rw [upsertStep, if_neg hmem, List.find?_append]
      simp [List.find?_cons, hds]

theorem save_candidates_go (origIds extra : List String)
    (cands : List SightingCandidate) (store : List SightingCandidate)
    (hstore : store.map (·.source_id) = origIds ++ extra)
    (hc : (cands.map (·.source_id)).Nodup)
    (hdisj : ∀ c ∈ cands, c.source_id ∉ extra) :
    (cands.foldl (upsertStep origIds) store).map (·.source_id) =
      store.map (·.source_id) ++
        ((cands.filter fun c => !origIds.contains c.source_id).map
          (·.source_id)) ∧
    (∀ c ∈ cands,
      (cands.foldl (upsertStep origIds) store).find?
          (fun r => decide (r.source_id = c.source_id)) = some c) := by
  induction cands generalizing store extra with
  | nil => exact ⟨by simp, by simp⟩
  | cons c rest ih =>
    have hcTail : (rest.map (·.source_id)).Nodup := (List.nodup_cons.mp hc).2
    have hcHead : c.source_id ∉ rest.map (·.source_id) := (List.nodup_cons.mp hc).1
    have hrest_ne : ∀ d ∈ rest, d.source_id ≠ c.source_id := by
      intro d hd heq
      exact hcHead (heq ▸ List.mem_map_of_mem (·.source_id) hd)
    by_cases hmem : origIds.contains c.source_id
    · have hids : (replaceFirst store c).map (·.source_id) = origIds ++ extra := by
        rw [replaceFirst_map_sid]; exact hstore
      obtain ⟨ih1, ih2⟩ := ih extra (replaceFirst store c) hids hcTail
        (fun d hd => hdisj d (List.mem_cons_of_mem c hd))
      refine ⟨?_, ?_⟩
      · rw [List.foldl_cons, upsertStep, if_pos hmem, ih1, replaceFirst_map_sid,
          List.filter_cons_of_neg (by simp only [hmem]; decide)]
      · intro d hd
        rcases List.mem_cons.mp hd with rfl | hd
        · rw [List.foldl_cons, upsertStep, if_pos hmem,
            find?_foldl_untouched origIds rest _ _ hrest_ne]
          refine find?_replaceFirst_self store d ?_
          rw [hstore]
          exact List.mem_append_left extra (List.elem_iff.mp hmem)
        · rw [List.foldl_cons, upsertStep, if_pos hmem]
          exact ih2 d hd
    · have hnotin : c.source_id ∉ store.map (·.source_id) := by
        rw [hstore]
        intro hin
        rcases List.mem_append.mp hin with hin | hin
        · exact hmem (List.elem_iff.mpr hin)
        · exact hdisj c (List.mem_cons_self c rest) hin
      have hids : (store ++ [c]).map (·.source_id) =
          origIds ++ (extra ++ [c.source_id]) := by
        simp [hstore]
      obtain ⟨ih1, ih2⟩ := ih (extra ++ [c.source_id]) (store ++ [c]) hids hcTail
        (fun d hd hdin => by
          rcases List.mem_append.mp hdin with hdin | hdin
          · exact hdisj d (List.mem_cons_of_mem c hd) hdin
          · exact hrest_ne d hd (List.mem_singleton.mp hdin))
      refine ⟨?_, ?_⟩
      · rw [List.foldl_cons, upsertStep, if_neg hmem, ih1,
          List.filter_cons_of_pos (by
            simp only [Bool.not_eq_true] at hmem
            show (!origIds.contains c.source_id) = true
            rw [hmem]
            rfl)]
        simp
      · intro d hd
        rcases List.mem_cons.mp hd with rfl | hd
        · rw [List.foldl_cons, upsertStep, if_neg hmem,
            find?_foldl_untouched origIds rest _ _ hrest_ne, List.find?_append]
          rw [List.find?_eq_none.mpr (fun x hx hpx => by
            simp only [decide_eq_true_eq] at hpx
            exact hnotin (hpx ▸ List.mem_map_of_mem (·.source_id) hx))]
          simp [List.find?_cons]
        · rw [List.foldl_cons, upsertStep, if_neg hmem]
          exact ih2 d hd

/-- C3 counterexample: `existing_dict` is computed once before the loop and
never updated, so two candidates in one batch sharing a fresh source_id are
both appended — the id "reddit_1" ends up stored twice, violating the
claimed at-most-once (primary key) property. -/
theorem save_candidates_counterexample :
    save_candidates []
        [mkCand "reddit_1" 0 "PENDING_REVIEW",
         mkCand "reddit_1" (mkRat 9 10) "PENDING_REVIEW"] =
      [mkCand "reddit_1" 0 "PENDING_REVIEW",
       mkCand "reddit_1" (mkRat 9 10) "PENDING_REVIEW"] ∧
    (save_candidates []
        [mkCand "reddit_1" 0 "PENDING_REVIEW",
         mkCand "reddit_1" (mkRat 9 10) "PENDING_REVIEW"]).map (·.source_id) =
      ["reddit_1", "reddit_1"] ∧
    ¬ ((save_candidates []
        [mkCand "reddit_1" 0 "PENDING_REVIEW",
         mkCand "reddit_1" (mkRat 9 10) "PENDING_REVIEW"]).map
          (·.source_id)).Nodup :=
  ⟨by decide, by decide, by decide⟩

/-- C3 (amended): provided the loaded store's source_ids are pairwise
distinct and the incoming batch's source_ids are pairwise distinct, the
merge is an upsert keyed by source_id: ids already present keep their
position (the record is replaced in place, length unchanged per step), new
ids are appended (length +1 per step), each saved candidate is the record
its id maps to afterwards, and the resulting ids are pairwise distinct. -/
theorem save_candidates_upsert (existing candidates : List SightingCandidate)
    (hex : (existing.map (·.source_id)).Nodup)
    (hcand : (candidates.map (·.source_id)).Nodup) :
    (save_candidates existing candidates).map (·.source_id) =
      existing.map (·.source_id) ++
        ((candidates.filter
            (fun c => !(existing.map (·.source_id)).contains c.source_id)).map
          (·.source_id)) ∧
    ((save_candidates existing candidates).map (·.source_id)).Nodup ∧
    (∀ c ∈ candidates,
      (save_candidates existing candidates).find?
          (fun r => decide (r.source_id = c.source_id)) = some c) ∧
    (∀ store c,
      (upsertStep (existing.map (·.source_id)) store c).length =
        if (existing.map (·.source_id)).contains c.source_id then store.length
        else store.length + 1) := by
  obtain ⟨h1, h2⟩ := save_candidates_go (existing.map (·.source_id)) []
    candidates existing (by simp) hcand (by simp)
  unfold save_candidates
  refine ⟨h1, ?_, h2, ?_⟩
  · rw [h1, List.nodup_append]
    refine ⟨hex, ((List.filter_sublist candidates).map _).nodup hcand, ?_⟩
    intro s hs hs'
    obtain ⟨c, hc, rfl⟩ := List.mem_map.mp hs'
    have := (List.mem_filter.mp hc).2
    simp only [Bool.not_eq_true'] at this
    exact absurd (this ▸ List.elem_iff.mpr hs) Bool.false_ne_true
  · intro store c
    by_cases hmem : (existing.map (·.source_id)).contains c.source_id
    · rw [upsertStep, if_pos hmem, if_pos hmem]
      have := congrArg List.length (replaceFirst_map_sid store c)
      simpa using this
    · rw [upsertStep, if_neg hmem, if_neg hmem]
      simp

theorem save_candidates_upsert_witness :
    (([mkCand "reddit_1" (mkRat 1 5) "PENDING_REVIEW"].map
        (·.source_id)).Nodup) ∧
    (([mkCand "reddit_1" (mkRat 9 10) "PENDING_REVIEW",
        mkCand "reddit_9" (mkRat 7 10) "PENDING_REVIEW"].map
        (·.source_id)).Nodup) ∧
    (save_candidates [mkCand "reddit_1" (mkRat 1 5) "PENDING_REVIEW"]
        [mkCand "reddit_1" (mkRat 9 10) "PENDING_REVIEW",
         mkCand "reddit_9" (mkRat 7 10) "PENDING_REVIEW"]).map (·.source_id) =
      [mkCand "reddit_1" (mkRat 1 5) "PENDING_REVIEW"].map (·.source_id) ++
        (([mkCand "reddit_1" (mkRat 9 10) "PENDING_REVIEW",
            mkCand "reddit_9" (mkRat 7 10) "PENDING_REVIEW"].filter
          (fun c => !(([mkCand "reddit_1" (mkRat 1 5) "PENDING_REVIEW"].map
            (·.source_id)).contains c.source_id))).map (·.source_id)) :=
  ⟨by decide, by decide,
    (save_candidates_upsert [mkCand "reddit_1" (mkRat 1 5) "PENDING_REVIEW"]
      [mkCand "reddit_1" (mkRat 9 10) "PENDING_REVIEW",
       mkCand "reddit_9" (mkRat 7 10) "PENDING_REVIEW"]
      (by decide) (by decide)).1⟩

/-! ## Poller keyword filter (C9) -/

theorem fetch_recent_posts_go (fetch : String → Option (List RedditPost))
    (extractImage : RedditPost → Option String) (now : PyDateTime)
    (c : SightingCandidate) (subs : List String)
    (acc : List SightingCandidate)
    (hmem : c ∈ subs.foldl
      (fun acc sub =>
        match fetch sub with
        | none => acc
        | some posts =>
          if posts = [] then acc
          else
            acc ++ (posts.filter fun p => contains_keywords (combinedText p)).map
              (post_to_candidate extractImage now)) acc) :
    c ∈ acc ∨ ∃ sub posts p, sub ∈ subs ∧ fetch sub = some posts ∧ p ∈ posts ∧
      contains_keywords (combinedText p) = true ∧
      c = post_to_candidate extractImage now p := by
  induction subs generalizing acc with
  | nil => exact Or.inl hmem
  | cons sub rest ih =>
    rw [List.foldl_cons] at hmem
    rcases ih _ hmem with hacc | ⟨sub', posts, p, hsub, hf, hp, hkw, hc⟩
    · cases hfs : fetch sub with
      | none =>
        rw [hfs] at hacc
        exact Or.inl hacc
      | some posts =>
        rw [hfs] at hacc
        have hacc' : c ∈ (if posts = [] then acc
            else acc ++
              ((posts.filter fun p => contains_keywords (combinedText p)).map
                (post_to_candidate extractImage now))) := hacc
        by_cases hpe : posts = []
        · rw [if_pos hpe] at hacc'
          exact Or.inl hacc'
        · rw [if_neg hpe] at hacc'
          rcases List.mem_append.mp hacc' with h | h
          · exact Or.inl h
          · obtain ⟨p, hp, rfl⟩ := List.mem_map.mp h
            exact Or.inr ⟨sub, posts, p, List.mem_cons_self _ _, hfs,
              (List.mem_filter.mp hp).1, (List.mem_filter.mp hp).2, rfl⟩
    · exact Or.inr ⟨sub', posts, p, List.mem_cons_of_mem _ hsub, hf, hp, hkw, hc⟩

/-- C9: every candidate `fetch_recent_posts` emits comes from a fetched post
of one of the configured subreddits whose title/selftext concatenation
passes the case-insensitive keyword substring filter; a post with no
keyword match is excluded at the poller stage and never converted to a
candidate. -/
theorem fetch_recent_posts_only_keyword_matches
    (fetch : String → Option (List RedditPost))
    (extractImage : RedditPost → Option String) (now : PyDateTime)
    (c : SightingCandidate)
    (hmem : c ∈ fetch_recent_posts fetch extractImage now) :
    ∃ sub posts p, sub ∈ SUBREDDITS ∧ fetch sub = some posts ∧ p ∈ posts ∧
      contains_keywords (combinedText p) = true ∧
      c = post_to_candidate extractImage now p := by
  rw [fetch_recent_posts] at hmem
  rcases fetch_recent_posts_go fetch extractImage now c SUBREDDITS [] hmem with
    h | h
  · simp at h
  · exact h

theorem fetch_recent_posts_only_keyword_matches_witness :
    post_to_candidate (fun _ => none) ts0 post0 ∈
      fetch_recent_posts (fun _ => some [post0]) (fun _ => none) ts0 ∧
    (∃ sub posts p, sub ∈ SUBREDDITS ∧
      (fun _ : String => some [post0]) sub = some posts ∧ p ∈ posts ∧
      contains_keywords (combinedText p) = true ∧
      post_to_candidate (fun _ => none) ts0 post0 =
        post_to_candidate (fun _ => none) ts0 p) :=
  ⟨by decide,
    fetch_recent_posts_only_keyword_matches (fun _ => some [post0])
      (fun _ => none) ts0 (post_to_candidate (fun _ => none) ts0 post0)
      (by decide)⟩

/-! ## Watermark round trip (C10) -/

theorem parseDigit_digitChar (n : Nat) (h : n < 10) :
    parseDigit (digitChar n) = some n := by
  interval_cases n <;> decide

theorem digitChar_ne_plus (n : Nat) (h : n < 10) : digitChar n ≠ '+' := by
  interval_cases n <;> decide

theorem pySpace_digitChar (n : Nat) (h : n < 10) :
    pySpace (digitChar n) = false := by
  interval_cases n <;> decide

theorem parse2_pad2 (n : Nat) (h : n < 100) :
    ∀ r, parse2 (pad2 n ++ r) = some (n, r) := by
  intro r
  have h1 : n / 10 < 10 := by omega
  have h2 : n % 10 < 10 := by omega
  simp only [pad2, List.cons_append, List.nil_append, parse2,
    parseDigit_digitChar _ h1, parseDigit_digitChar _ h2, Option.bind_eq_bind,
    Option.some_bind, Option.some.injEq, Prod.mk.injEq, and_true]
  omega

theorem parse4_pad4 (n : Nat) (h : n < 10000) :
    ∀ r, parse4 (pad4 n ++ r) = some (n, r) := by
  intro r
  have h1 : n / 1000 < 10 := by omega
  have h2 : n / 100 % 10 < 10 := by omega
  have h3 : n / 10 % 10 < 10 := by omega
  have h4 : n % 10 < 10 := by omega
  simp only [pad4, List.cons_append, List.nil_append, parse4,
    parseDigit_digitChar _ h1, parseDigit_digitChar _ h2,
    parseDigit_digitChar _ h3, parseDigit_digitChar _ h4, Option.bind_eq_bind,
    Option.some_bind, Option.some.injEq, Prod.mk.injEq, and_true]
  omega

theorem parse6_pad6 (n : Nat) (h : n < 1000000) :
    ∀ r, parse6 (pad6 n ++ r) = some (n, r) := by
  intro r
  have h1 : n / 100000 < 10 := by omega
  have h2 : n / 10000 % 10 < 10 := by omega
  have h3 : n / 1000 % 10 < 10 := by omega
  have h4 : n / 100 % 10 < 10 := by omega
  have h5 : n / 10 % 10 < 10 := by omega
  have h6 : n % 10 < 10 := by omega
  simp only [pad6, List.cons_append, List.nil_append, parse6,
    parseDigit_digitChar _ h1, parseDigit_digitChar _ h2,
    parseDigit_digitChar _ h3, parseDigit_digitChar _ h4,
    parseDigit_digitChar _ h5, parseDigit_digitChar _ h6, Option.bind_eq_bind,
    Option.some_bind, Option.some.injEq, Prod.mk.injEq, and_true]
  omega

theorem expectChar_cons (c : Char) (r : List Char) :
    expectChar c (c :: r) = some r := by
  simp [expectChar]

theorem isoOffset_zero : isoOffset 0 = ['+', '0', '0', ':', '0', '0'] := by
  decide

theorem parseOffset_utc :
    parseOffset ['+', '0', '0', ':', '0', '0'] = some (some 0, []) := by
  decide

theorem daysInMonth_le (y m : Nat) : daysInMonth y m ≤ 31 := by
  unfold daysInMonth
  split_ifs <;> omega

theorem noPlus_pad2 (n : Nat) (h : n < 100) : ∀ c ∈ pad2 n, c ≠ '+' := by
  intro c hc
  simp only [pad2, List.mem_cons, List.not_mem_nil, or_false] at hc
  rcases hc with rfl | rfl
  · exact digitChar_ne_plus _ (by omega)
  · exact digitChar_ne_plus _ (by omega)

theorem noPlus_pad4 (n : Nat) (h : n < 10000) : ∀ c ∈ pad4 n, c ≠ '+' := by
  intro c hc
  simp only [pad4, List.mem_cons, List.not_mem_nil, or_false] at hc
  rcases hc with rfl | rfl | rfl | rfl <;> exact digitChar_ne_plus _ (by omega)

theorem noPlus_pad6 (n : Nat) (h : n < 1000000) : ∀ c ∈ pad6 n, c ≠ '+' := by
  intro c hc
  simp only [pad6, List.mem_cons, List.not_mem_nil, or_false] at hc
  rcases hc with rfl | rfl | rfl | rfl | rfl | rfl <;>
    exact digitChar_ne_plus _ (by omega)

theorem countOffsetSub_cons_ne (c : Char) (l : List Char) (hc : c ≠ '+') :
    countOffsetSub (c :: l) = countOffsetSub l := by
  simp [countOffsetSub, countAux, List.isPrefixOf, Ne.symm hc]

theorem countOffsetSub_append (core t : List Char)
    (h : ∀ c ∈ core, c ≠ '+') :
    countOffsetSub (core ++ t) = countOffsetSub t := by
  induction core with
  | nil => rfl
  | cons c cs ih =>
    rw [List.cons_append,
      countOffsetSub_cons_ne c _ (h c (List.mem_cons_self c cs)),
      ih fun x hx => h x (List.mem_cons_of_mem c hx)]

theorem collapseOffsetPair_cons_ne (c : Char) (l : List Char) (hc : c ≠ '+') :
    collapseOffsetPair (c :: l) = c :: collapseOffsetPair l := by
  simp [collapseOffsetPair, collapseAux, List.isPrefixOf, Ne.symm hc]

theorem collapseOffsetPair_append (core t : List Char)
    (h : ∀ c ∈ core, c ≠ '+') :
    collapseOffsetPair (core ++ t) = core ++ collapseOffsetPair t := by
  induction core with
  | nil => rfl
  | cons c cs ih =>
    rw [List.cons_append,
      collapseOffsetPair_cons_ne c _ (h c (List.mem_cons_self c cs)),
      ih fun x hx => h x (List.mem_cons_of_mem c hx), List.cons_append]

theorem pyStripList_eq_self (l : List Char)
    (h1 : ∀ c, l.head? = some c → pySpace c = false)
    (h2 : ∀ c, l.getLast? = some c → pySpace c = false) :
    pyStripList l = l := by
  have hfront : l.dropWhile pySpace = l := by
    cases l with
    | nil => rfl
    | cons c cs => rw [List.dropWhile_cons, if_neg (by simp [h1 c rfl])]
  have hback : l.reverse.dropWhile pySpace = l.reverse := by
    cases hr : l.reverse with
    | nil => rfl
    | cons d ds =>
      have hd : l.getLast? = some d := by rw [← List.head?_reverse, hr]; rfl
      rw [List.dropWhile_cons, if_neg (by simp [h2 d hd])]
  rw [pyStripList, hfront, hback, List.reverse_reverse]

theorem parseFrac_plus (r : List Char) :
    parseFrac ('+' :: r) = some (0, '+' :: r) :=
  rfl

theorem parseFrac_dot (r : List Char) : parseFrac ('.' :: r) = parse6 r :=
  rfl

set_option maxHeartbeats 1600000 in
theorem fromisoformat_isoformat (y mo d hh mi ss us : Nat)
    (hy : y < 10000) (hmo : mo < 100) (hd : d < 100) (hhh : hh < 100)
    (hmi : mi < 100) (hss : ss < 100) (hus : us < 1000000)
    (hv : validFields y mo d hh mi ss us = true) :
    fromisoformat (isoformat ⟨y, mo, d, hh, mi, ss, us, some 0⟩) =
      some ⟨y, mo, d, hh, mi, ss, us, some 0⟩ := by
  have hiso : isoformat ⟨y, mo, d, hh, mi, ss, us, some 0⟩ =
      pad4 y ++ '-' :: pad2 mo ++ '-' :: pad2 d ++ 'T' :: pad2 hh ++
        ':' :: pad2 mi ++ ':' :: pad2 ss ++
        (if us = 0 then [] else '.' :: pad6 us) ++
        ['+', '0', '0', ':', '0', '0'] := rfl
  rw [hiso]
  by_cases h0 : us = 0
  · subst h0
    rw [if_pos rfl]
    simp only [List.append_assoc, List.cons_append, List.nil_append]
    rw [fromisoformat]
    simp only [parse4_pad4 y hy, expectChar_cons, parse2_pad2 mo hmo,
      parse2_pad2 d hd, parse2_pad2 hh hhh, parse2_pad2 mi hmi,
      parse2_pad2 ss hss, parseFrac_plus, parseOffset_utc, Option.bind_eq_bind,
      Option.some_bind]
    simp [hv]
  · rw [if_neg h0]
    simp only [List.append_assoc, List.cons_append, List.nil_append]
    rw [fromisoformat]
    simp only [parse4_pad4 y hy, expectChar_cons, parse2_pad2 mo hmo,
      parse2_pad2 d hd, parse2_pad2 hh hhh, parse2_pad2 mi hmi,
      parse2_pad2 ss hss, parseFrac_dot, parse6_pad6 us hus, parseOffset_utc,
      Option.bind_eq_bind, Option.some_bind]
    simp [hv]

theorem noPlus_append {a b : List Char} (ha : ∀ c ∈ a, c ≠ '+')
    (hb : ∀ c ∈ b, c ≠ '+') : ∀ c ∈ a ++ b, c ≠ '+' := by
  intro c hc
  rcases List.mem_append.mp hc with h | h
  exacts [ha c h, hb c h]

theorem noPlus_cons {c0 : Char} {l : List Char} (h0 : c0 ≠ '+')
    (hl : ∀ c ∈ l, c ≠ '+') : ∀ c ∈ c0 :: l, c ≠ '+' := by
  intro c hc
  rcases List.mem_cons.mp hc with rfl | h
  exacts [h0, hl c h]

theorem parse_last_check_of_iso (core : List Char) (dtv : PyDateTime)
    (hnp : ∀ c ∈ core, c ≠ '+')
    (hhead : ∀ c, core.head? = some c → pySpace c = false)
    (hne : core ≠ [])
    (hparse : fromisoformat (core ++ ['+', '0', '0', ':', '0', '0']) = some dtv)
    (htzv : dtv.tzOffsetMinutes = some 0) :
    parse_last_check ⟨core ++ ['+', '0', '0', ':', '0', '0'] ++ ['Z']⟩ =
      some dtv := by
  obtain ⟨c0, cs, hcc⟩ := List.exists_cons_of_ne_nil hne
  subst hcc
  have hstrip :
      pyStripList (((c0 :: cs) ++ ['+', '0', '0', ':', '0', '0']) ++ ['Z']) =
        ((c0 :: cs) ++ ['+', '0', '0', ':', '0', '0']) ++ ['Z'] := by
    apply pyStripList_eq_self
    · intro c hc
      simp only [List.cons_append, List.head?_cons, Option.some.injEq] at hc
      exact hc ▸ hhead c0 rfl
    · intro c hc
      rw [List.getLast?_concat] at hc
      cases hc
      decide
  have hsuf :
      (['Z'] : List Char).isSuffixOf
        (((c0 :: cs) ++ ['+', '0', '0', ':', '0', '0']) ++ ['Z']) = true :=
    List.isSuffixOf_iff_suffix.mpr ⟨(c0 :: cs) ++ ['+', '0', '0', ':', '0', '0'], rfl⟩
  have hdata : ("+00:00" : String).data = ['+', '0', '0', ':', '0', '0'] := rfl
  have hP12 : (['+', '0', '0', ':', '0', '0'] : List Char) ++
      ['+', '0', '0', ':', '0', '0'] =
      ['+', '0', '0', ':', '0', '0', '+', '0', '0', ':', '0', '0'] := rfl
  have hcount : countOffsetSub ((c0 :: cs) ++
      ['+', '0', '0', ':', '0', '0', '+', '0', '0', ':', '0', '0']) = 2 := by
    rw [countOffsetSub_append _ _ hnp]
    decide
  have hcollapse : collapseOffsetPair ((c0 :: cs) ++
      ['+', '0', '0', ':', '0', '0', '+', '0', '0', ':', '0', '0']) =
      (c0 :: cs) ++ ['+', '0', '0', ':', '0', '0'] := by
    rw [collapseOffsetPair_append _ _ hnp,
      show collapseOffsetPair
          ['+', '0', '0', ':', '0', '0', '+', '0', '0', ':', '0', '0'] =
        ['+', '0', '0', ':', '0', '0'] from by decide]
  have hz : zToOffset (((c0 :: cs) ++ ['+', '0', '0', ':', '0', '0']) ++ ['Z']) =
      (c0 :: cs) ++ ['+', '0', '0', ':', '0', '0', '+', '0', '0', ':', '0', '0'] := by
    rw [zToOffset, if_pos hsuf, List.dropLast_concat, hdata, List.append_assoc,
      hP12]
  have hdd : dedupOffset ((c0 :: cs) ++
      ['+', '0', '0', ':', '0', '0', '+', '0', '0', ':', '0', '0']) =
      (c0 :: cs) ++ ['+', '0', '0', ':', '0', '0'] := by
    rw [dedupOffset, hcount, if_pos (by norm_num : (1 : Nat) < 2), hcollapse]
  unfold parse_last_check
  rw [show (⟨((c0 :: cs) ++ ['+', '0', '0', ':', '0', '0']) ++ ['Z']⟩ :
      String).data = ((c0 :: cs) ++ ['+', '0', '0', ':', '0', '0']) ++ ['Z']
    from rfl]
  rw [hstrip, hz, hdd, hparse]
  simp [htzv]

/-- C10: `_save_last_check` serializes the watermark as `isoformat() + "Z"`
— for a UTC-aware timestamp this ends in the doubled suffix `+00:00Z` — and
`_load_last_check`'s Z-stripping and duplicated-offset normalization
recover exactly the instant that was saved. -/
theorem watermark_round_trip (dt : PyDateTime)
    (htz : dt.tzOffsetMinutes = some 0)
    (hv : validFields dt.year dt.month dt.day dt.hour dt.minute dt.second
      dt.microsecond = true) :
    parse_last_check ⟨save_last_check dt⟩ = some dt ∧
    save_last_check dt = isoformat dt ++ ['Z'] ∧
    ("+00:00Z".data).isSuffixOf (save_last_check dt) = true := by
  obtain ⟨y, mo, d, hh, mi, ss, us, tz⟩ := dt
  dsimp only at htz hv
  subst htz
  have hb := hv
  simp only [validFields, Bool.and_eq_true, decide_eq_true_eq, and_assoc] at hb
  obtain ⟨hb1, hb2, hb3, hb4, hb5, hb6, hb7, hb8, hb9, hb10⟩ := hb
  have hd31 : d ≤ 31 := le_trans hb6 (daysInMonth_le y mo)
  have hnfrac :
      ∀ c ∈ (if us = 0 then ([] : List Char) else '.' :: pad6 us), c ≠ '+' := by
    split_ifs
    · intro c hc
      simp at hc
    · exact noPlus_cons (by decide) (noPlus_pad6 us (by omega))
  have hnp : ∀ c ∈ pad4 y ++ '-' :: pad2 mo ++ '-' :: pad2 d ++ 'T' :: pad2 hh ++
      ':' :: pad2 mi ++ ':' :: pad2 ss ++
      (if us = 0 then ([] : List Char) else '.' :: pad6 us), c ≠ '+' :=
    noPlus_append (noPlus_append (noPlus_append (noPlus_append (noPlus_append
      (noPlus_append (noPlus_pad4 y (by omega))
        (noPlus_cons (by decide) (noPlus_pad2 mo (by omega))))
        (noPlus_cons (by decide) (noPlus_pad2 d (by omega))))
        (noPlus_cons (by decide) (noPlus_pad2 hh (by omega))))
        (noPlus_cons (by decide) (noPlus_pad2 mi (by omega))))
        (noPlus_cons (by decide) (noPlus_pad2 ss (by omega))))
      hnfrac
  have hch : (pad4 y ++ '-' :: pad2 mo ++ '-' :: pad2 d ++ 'T' :: pad2 hh ++
      ':' :: pad2 mi ++ ':' :: pad2 ss ++
      (if us = 0 then ([] : List Char) else '.' :: pad6 us)).head? =
      some (digitChar (y / 1000)) := by
    simp [pad4, List.append_assoc]
  have hhead : ∀ c, (pad4 y ++ '-' :: pad2 mo ++ '-' :: pad2 d ++
      'T' :: pad2 hh ++ ':' :: pad2 mi ++ ':' :: pad2 ss ++
      (if us = 0 then ([] : List Char) else '.' :: pad6 us)).head? = some c →
      pySpace c = false := by
    intro c hc
    rw [hch] at hc
    cases hc
    exact pySpace_digitChar _ (by omega)
  have hne : (pad4 y ++ '-' :: pad2 mo ++ '-' :: pad2 d ++ 'T' :: pad2 hh ++
      ':' :: pad2 mi ++ ':' :: pad2 ss ++
      (if us = 0 then ([] : List Char) else '.' :: pad6 us)) ≠ [] := by
    intro h
    rw [h] at hch
    exact Option.noConfusion hch
  have hiso : isoformat ⟨y, mo, d, hh, mi, ss, us, some 0⟩ =
      (pad4 y ++ '-' :: pad2 mo ++ '-' :: pad2 d ++ 'T' :: pad2 hh ++
        ':' :: pad2 mi ++ ':' :: pad2 ss ++
        (if us = 0 then ([] : List Char) else '.' :: pad6 us)) ++
      ['+', '0', '0', ':', '0', '0'] := rfl
  have hparse : fromisoformat ((pad4 y ++ '-' :: pad2 mo ++ '-' :: pad2 d ++
      'T' :: pad2 hh ++ ':' :: pad2 mi ++ ':' :: pad2 ss ++
      (if us = 0 then ([] : List Char) else '.' :: pad6 us)) ++
      ['+', '0', '0', ':', '0', '0']) = some ⟨y, mo, d, hh, mi, ss, us, some 0⟩ := by
    rw [← hiso]
    exact fromisoformat_isoformat y mo d hh mi ss us (by omega) (by omega)
      (by omega) (by omega) (by omega) (by omega) (by omega) hv
  refine ⟨?_, rfl, ?_⟩
  · exact parse_last_check_of_iso _ ⟨y, mo, d, hh, mi, ss, us, some 0⟩
      hnp hhead hne hparse rfl
  · apply List.isSuffixOf_iff_suffix.mpr
    refine ⟨pad4 y ++ '-' :: pad2 mo ++ '-' :: pad2 d ++ 'T' :: pad2 hh ++
      ':' :: pad2 mi ++ ':' :: pad2 ss ++
      (if us = 0 then ([] : List Char) else '.' :: pad6 us), ?_⟩
    rw [show ("+00:00Z" : String).data =
        (['+', '0', '0', ':', '0', '0'] : List Char) ++ ['Z'] from rfl,
      show save_last_check ⟨y, mo, d, hh, mi, ss, us, some 0⟩ =
        ((pad4 y ++ '-' :: pad2 mo ++ '-' :: pad2 d ++ 'T' :: pad2 hh ++
          ':' :: pad2 mi ++ ':' :: pad2 ss ++
          (if us = 0 then ([] : List Char) else '.' :: pad6 us)) ++
          ['+', '0', '0', ':', '0', '0']) ++ ['Z'] from rfl]
    simp [List.append_assoc]

theorem watermark_round_trip_witness :
    (⟨2025, 12, 28, 21, 18, 40, 323267, some 0⟩ :
      PyDateTime).tzOffsetMinutes = some 0 ∧
    validFields 2025 12 28 21 18 40 323267 = true ∧
    parse_last_check
        ⟨save_last_check ⟨2025, 12, 28, 21, 18, 40, 323267, some 0⟩⟩ =
      some ⟨2025, 12, 28, 21, 18, 40, 323267, some 0⟩ :=
  ⟨rfl, by decide,
    (watermark_round_trip ⟨2025, 12, 28, 21, 18, 40, 323267, some 0⟩ rfl
      (by decide)).1⟩

end Robotaxi
